import Mathlib

/-!
Shallow embedding of the risk-scoring and policy-decision logic of the
satrguard browser-extension repository.

Embedded sources:
* `identity theft protection/content.js` — `computeRisk`, `luhnCheck`,
  `anonymizeSample`, `detectTypes`, `appendLog`, the form-submit handler of
  `hookAllForms`.
* `WebcamMicPrivacyExtension/background.js` — `checkSitePermissions`,
  `cleanupExpiredPermissions`.

JavaScript numbers on these paths are non-negative integers, so they are
modelled as `Nat`.  JavaScript strings are modelled as `String` when only
compared for equality and as `List Char` when sliced character by character.
External regular-expression and keyword matchers (`RegExp.test`,
`Array.some` over the keyword tables) are kept abstract as boolean oracle
parameters; all value-derived logic (digit filtering, lengths, the Luhn
checksum) is embedded exactly.
-/

namespace SatrGuard

/-! ### Risk scoring (`content.js`, `computeRisk`) -/

/-- Severity table `TYPE_WEIGHT` of `content.js`; `TYPE_WEIGHT[t] || 0`
yields `0` for unknown type tags. -/
def TYPE_WEIGHT : String → Nat
  | "nin" => 55
  | "bvn" => 60
  | "bankAccount" => 55
  | "bankCode" => 25
  | "cardNumber" => 80
  | "cvv" => 70
  | "cardExpiry" => 25
  | "dob" => 30
  | "passport" => 45
  | "phone" => 20
  | "email" => 20
  | "password" => 75
  | "ssn" => 70
  | _ => 0

/-- Helper for `setDedup`: JavaScript `new Set(xs)` keeps the first
occurrence of each element, in insertion order. -/
def setDedupAux (seen : List String) : List String → List String
  | [] => []
  | x :: t => if x ∈ seen then setDedupAux seen t else x :: setDedupAux (x :: seen) t

/-- Model of `[...new Set(types)]`: first occurrences, in order. -/
def setDedup (l : List String) : List String :=
  setDedupAux [] l

/-- Result record of `computeRisk`:
`{score, level: "low"|"mod"|"high", reasons}`. -/
structure RiskAssessment where
  score : Nat
  level : String
  reasons : List String
  deriving Repr, DecidableEq

/-- Model of `computeRisk({types, https, crossOrigin, trusted})` from
`content.js`: base severity is the sum of weights of the deduplicated
types capped at 100, then +30 when not HTTPS, +20 when cross-origin,
+20 when the domain is not trusted, final clamp to [0,100], and the
level thresholds 70 (high) and 40 (mod). -/
def computeRisk (types : List String) (https crossOrigin trusted : Bool) :
    RiskAssessment :=
  let uniqueTypes := setDedup types
  let base := min ((uniqueTypes.map (fun t => TYPE_WEIGHT t)).sum) 100
  let reasons0 :=
    if uniqueTypes.isEmpty then ([] : List String)
    else ["Contains: " ++ String.intercalate ", " uniqueTypes]
  let score1 := base + (if https then 0 else 30)
  let reasons1 := reasons0 ++ (if https then [] else ["Non-HTTPS connection"])
  let score2 := score1 + (if crossOrigin then 20 else 0)
  let reasons2 := reasons1 ++ (if crossOrigin then ["Form posts to different origin"] else [])
  let score3 := score2 + (if trusted then 0 else 20)
  let reasons3 := reasons2 ++ (if trusted then [] else ["Domain not in trusted list"])
  let score := min score3 100
  let level := if 70 ≤ score then "high" else if 40 ≤ score then "mod" else "low"
  ⟨score, level, reasons3⟩

example : (computeRisk [] true true false).score = 40 := by decide
example : (computeRisk [] true true false).level = "mod" := by decide
example : (computeRisk ["cardNumber"] false false false).score = 100 := by decide
example : (computeRisk [] true false true).score = 0 := by decide

theorem setDedupAux_append_single (t : String) (l : List String) :
    ∀ seen : List String,
      setDedupAux seen (l ++ [t]) =
        if t ∈ seen ∨ t ∈ l then setDedupAux seen l else setDedupAux seen l ++ [t] := by
  induction l with
  | nil =>
    intro seen
    by_cases h : t ∈ seen
    · rw [if_pos (Or.inl h)]
      show (if t ∈ seen then setDedupAux seen [] else t :: setDedupAux (t :: seen) []) = _
      rw [if_pos h]
    · rw [if_neg (by simp [h])]
      show (if t ∈ seen then setDedupAux seen [] else t :: setDedupAux (t :: seen) []) = _
      rw [if_neg h]
      rfl
  | cons x r ih =>
    intro seen
    have hstep : setDedupAux seen ((x :: r) ++ [t]) =
        if x ∈ seen then setDedupAux seen (r ++ [t])
        else x :: setDedupAux (x :: seen) (r ++ [t]) := rfl
    have hstep2 : setDedupAux seen (x :: r) =
        if x ∈ seen then setDedupAux seen r
        else x :: setDedupAux (x :: seen) r := rfl
    rw [hstep, hstep2]
    by_cases hx : x ∈ seen
    · rw [if_pos hx, if_pos hx, ih seen]
      have hiff : (t ∈ seen ∨ t ∈ x :: r) ↔ (t ∈ seen ∨ t ∈ r) := by
        constructor
        · rintro (h | h)
          · exact Or.inl h
          · rcases List.mem_cons.mp h with rfl | h2
            · exact Or.inl hx
            · exact Or.inr h2
        · rintro (h | h)
          · exact Or.inl h
          · exact Or.inr (List.mem_cons_of_mem _ h)
      by_cases hc : t ∈ seen ∨ t ∈ r
      · rw [if_pos hc, if_pos (hiff.mpr hc)]
      · rw [if_neg hc, if_neg (fun hh => hc (hiff.mp hh))]
    · rw [if_neg hx, if_neg hx, ih (x :: seen)]
      have hiff : (t ∈ x :: seen ∨ t ∈ r) ↔ (t ∈ seen ∨ t ∈ x :: r) := by
        constructor
        · rintro (h | h)
          · rcases List.mem_cons.mp h with rfl | h2
            · exact Or.inr (List.mem_cons_self _ _)
            · exact Or.inl h2
          · exact Or.inr (List.mem_cons_of_mem _ h)
        · rintro (h | h)
          · exact Or.inl (List.mem_cons_of_mem _ h)
          · rcases List.mem_cons.mp h with rfl | h2
            · exact Or.inl (List.mem_cons_self _ _)
            · exact Or.inr h2
      by_cases hc : t ∈ x :: seen ∨ t ∈ r
      · rw [if_pos hc, if_pos (hiff.mp hc)]
      · rw [if_neg hc, if_neg (fun hh => hc (hiff.mpr hh))]
        rfl

theorem setDedup_append_single (ts : List String) (t : String) :
    setDedup (ts ++ [t]) = if t ∈ ts then setDedup ts else setDedup ts ++ [t] := by
  unfold setDedup
  rw [setDedupAux_append_single]
  simp

theorem sum_setDedup_append_single (ts : List String) (t : String) :
    ((setDedup ts).map (fun u => TYPE_WEIGHT u)).sum ≤
      ((setDedup (ts ++ [t])).map (fun u => TYPE_WEIGHT u)).sum := by
  rw [setDedup_append_single]
  by_cases h : t ∈ ts
  · simp [h]
  · simp only [h, if_neg, List.map_append, List.sum_append]
    simp

theorem computeRisk_score_eq (ts : List String) (https co tr : Bool) :
    (computeRisk ts https co tr).score =
      min (min ((setDedup ts).map (fun u => TYPE_WEIGHT u)).sum 100
            + (if https then 0 else 30) + (if co then 20 else 0)
            + (if tr then 0 else 20)) 100 := rfl

/-- C4: the risk score is monotone: appending a further detected type never
decreases the score, and (for a fixed type list and fixed HTTPS/cross-origin
context) the score with `trusted = false` is at least the score with
`trusted = true`. -/
theorem computeRisk_monotone (ts : List String) (t : String)
    (https crossOrigin trusted : Bool) :
    (computeRisk ts https crossOrigin trusted).score ≤
        (computeRisk (ts ++ [t]) https crossOrigin trusted).score
    ∧ (computeRisk ts https crossOrigin true).score ≤
        (computeRisk ts https crossOrigin false).score := by
  have h := sum_setDedup_append_single ts t
  constructor
  · rw [computeRisk_score_eq, computeRisk_score_eq]
    cases https <;> cases crossOrigin <;> cases trusted <;> simp <;> omega
  · rw [computeRisk_score_eq, computeRisk_score_eq]
    cases https <;> cases crossOrigin <;> simp

/-- C3: threshold consistency of `computeRisk`: the returned level is
`"high"` exactly when the returned score is at least 70, `"low"` exactly
when it is below 40, and `"mod"` exactly in between. -/
theorem computeRisk_thresholds (ts : List String) (https co tr : Bool) :
    ((computeRisk ts https co tr).level = "high" ↔
        70 ≤ (computeRisk ts https co tr).score)
    ∧ ((computeRisk ts https co tr).level = "low" ↔
        (computeRisk ts https co tr).score < 40)
    ∧ ((computeRisk ts https co tr).level = "mod" ↔
        (40 ≤ (computeRisk ts https co tr).score ∧
          (computeRisk ts https co tr).score < 70)) := by
  obtain ⟨s, rs, hrepr⟩ :
      ∃ s rs, computeRisk ts https co tr =
        ⟨s, (if 70 ≤ s then "high" else if 40 ≤ s then "mod" else "low"), rs⟩ :=
    ⟨_, _, rfl⟩
  rw [hrepr]
  dsimp only
  split_ifs with h1 h2
  all_goals simp_all
  all_goals omega

/-- C1: counterexample to Scenario A of the spec: for no detected types in
context `{https: true, crossOrigin: true, trusted: false}`, `computeRisk`
does not return score 20 with level low. -/
theorem computeRisk_scenarioA_counterexample :
    ¬ ((computeRisk [] true true false).score = 20 ∧
        (computeRisk [] true true false).level = "low") := by
  decide

/-- C1 (amended): for exactly one cross-origin-post signal and no detected
sensitive-field types in context `{https: true, trusted: false}`,
`computeRisk` returns score 40 (cross-origin penalty 20 plus untrusted
penalty 20) and level `"mod"`. -/
theorem computeRisk_scenarioA :
    (computeRisk [] true true false).score = 40 ∧
      (computeRisk [] true true false).level = "mod" := by
  decide

/-! ### Webcam/microphone permissions
(`WebcamMicPrivacyExtension/background.js`) -/

/-- The fields of the background settings object consulted by
`checkSitePermissions` and `cleanupExpiredPermissions`. -/
structure WPSettings where
  webcamBlocked : Bool
  micBlocked : Bool
  autoBlockBackground : Bool
  deriving Repr, DecidableEq

/-- A value of the `temporaryPermissions` map:
`{webcam, microphone, expiry}`. -/
structure TempPerm where
  webcam : Bool
  microphone : Bool
  expiry : Nat
  deriving Repr, DecidableEq

/-- Result object of `checkSitePermissions`. -/
structure PermResult where
  webcamAllowed : Bool
  microphoneAllowed : Bool
  reason : String
  expiryOut : Option Nat
  deriving Repr, DecidableEq

/-- A capability requested by a site: webcam or microphone. -/
inductive Capability where
  | webcam
  | microphone
  deriving Repr, DecidableEq

/-- Projection of a `checkSitePermissions` result onto one capability. -/
def allowedFor (r : PermResult) : Capability → Bool
  | .webcam => r.webcamAllowed
  | .microphone => r.microphoneAllowed

/-- Whether a temporary grant covers a capability (its `webcam` /
`microphone` flag). -/
def grantCovers (tp : TempPerm) : Capability → Bool
  | .webcam => tp.webcam
  | .microphone => tp.microphone

/-- The global block setting for a capability (`webcamBlocked` /
`micBlocked`). -/
def globalBlockOf (s : WPSettings) : Capability → Bool
  | .webcam => s.webcamBlocked
  | .microphone => s.micBlocked

/-- Model of `checkSitePermissions(hostname, isBackground)`: the
`temporaryPermissions` JavaScript `Map` is an association list with the
hostname as key, and `Date.now()` is the explicit `now` argument. -/
def checkSitePermissions (s : WPSettings) (store : List (String × TempPerm))
    (hostname : String) (isBackground : Bool) (now : Nat) : PermResult :=
  if isBackground && s.autoBlockBackground then
    ⟨false, false, "backgroundTab", none⟩
  else
    match List.lookup hostname store with
    | some tempPerms =>
        if now < tempPerms.expiry then
          ⟨tempPerms.webcam && !s.webcamBlocked,
           tempPerms.microphone && !s.micBlocked,
           "temporary", some tempPerms.expiry⟩
        else
          ⟨!s.webcamBlocked, !s.micBlocked, "global", none⟩
    | none => ⟨!s.webcamBlocked, !s.micBlocked, "global", none⟩

/-- Model of `cleanupExpiredPermissions()`: walks the map, deletes every
entry with `expiry <= now`, and returns the pruned map together with the
`hasExpired` flag that decides whether `chrome.storage.local.set` is
called (persisting the pruned map). -/
def cleanupExpiredPermissions (now : Nat) :
    List (String × TempPerm) → List (String × TempPerm) × Bool
  | [] => ([], false)
  | e :: rest =>
      let r := cleanupExpiredPermissions now rest
      if e.2.expiry ≤ now then (r.1, true) else (e :: r.1, r.2)

example :
    cleanupExpiredPermissions 10 [("a", ⟨true, false, 5⟩), ("b", ⟨true, true, 20⟩)] =
      ([("b", ⟨true, true, 20⟩)], true) := by decide

example :
    cleanupExpiredPermissions 10 [("b", ⟨true, true, 20⟩)] =
      ([("b", ⟨true, true, 20⟩)], false) := by decide

/-- C2: counterexample: the site has an unexpired temporary grant covering
the webcam, yet `checkSitePermissions` denies the webcam because the
global `webcamBlocked` setting (its default) is still on. -/
theorem tempGrant_not_sufficient_counterexample :
    (0 < (100 : Nat)
      ∧ grantCovers ⟨true, true, 100⟩ Capability.webcam = true)
    ∧ allowedFor
        (checkSitePermissions ⟨true, true, true⟩ [("site.example", ⟨true, true, 100⟩)]
          "site.example" false 0) Capability.webcam = false := by
  decide

/-- C2 (amended): an unexpired temporary grant covering a capability makes
the permission check allow that capability, provided the request is not
short-circuited by background auto-block and the capability's global block
setting is off. -/
theorem tempGrant_allows (s : WPSettings) (store : List (String × TempPerm))
    (hostname : String) (isBackground : Bool) (now : Nat) (tp : TempPerm)
    (cap : Capability)
    (hlook : List.lookup hostname store = some tp)
    (hactive : now < tp.expiry)
    (hcov : grantCovers tp cap = true)
    (hglob : globalBlockOf s cap = false)
    (hbg : ¬(isBackground = true ∧ s.autoBlockBackground = true)) :
    allowedFor (checkSitePermissions s store hostname isBackground now) cap = true := by
  unfold checkSitePermissions
  have hbg2 : (isBackground && s.autoBlockBackground) = false := by
    cases isBackground <;> cases hb : s.autoBlockBackground <;> simp_all
  rw [if_neg (by simp [hbg2]), hlook]
  cases cap <;> simp_all [allowedFor, grantCovers, globalBlockOf, hactive]

/-- C2 witness: the amended theorem applied at a concrete unexpired grant
with the corresponding global block disabled. -/
theorem tempGrant_allows_witness :
    allowedFor
      (checkSitePermissions ⟨false, true, true⟩ [("site.example", ⟨true, false, 100⟩)]
        "site.example" false 0) Capability.webcam = true :=
  tempGrant_allows ⟨false, true, true⟩ [("site.example", ⟨true, false, 100⟩)]
    "site.example" false 0 ⟨true, false, 100⟩ Capability.webcam
    (by decide) (by decide) (by decide) (by decide) (by decide)

theorem mem_cleanupExpiredPermissions (now : Nat)
    (store : List (String × TempPerm)) (e : String × TempPerm) :
    e ∈ (cleanupExpiredPermissions now store).1 ↔
      e ∈ store ∧ now < e.2.expiry := by
  induction store with
  | nil => simp [cleanupExpiredPermissions]
  | cons x rest ih =>
    by_cases h : x.2.expiry ≤ now
    · have hx : (cleanupExpiredPermissions now (x :: rest)).1 =
          (cleanupExpiredPermissions now rest).1 := by
        simp [cleanupExpiredPermissions, h]
      rw [hx, ih]
      constructor
      · rintro ⟨he, hlt⟩
        exact ⟨List.mem_cons_of_mem _ he, hlt⟩
      · rintro ⟨he, hlt⟩
        rcases List.mem_cons.mp he with rfl | h2
        · omega
        · exact ⟨h2, hlt⟩
    · have hx : (cleanupExpiredPermissions now (x :: rest)).1 =
          x :: (cleanupExpiredPermissions now rest).1 := by
        simp [cleanupExpiredPermissions, h]
      rw [hx]
      constructor
      · intro hmem
        rcases List.mem_cons.mp hmem with rfl | h2
        · exact ⟨List.mem_cons_self _ _, by omega⟩
        · obtain ⟨a, b⟩ := ih.mp h2
          exact ⟨List.mem_cons_of_mem _ a, b⟩
      · rintro ⟨he, hlt⟩
        rcases List.mem_cons.mp he with rfl | h2
        · exact List.mem_cons_self _ _
        · exact List.mem_cons_of_mem _ (ih.mpr ⟨h2, hlt⟩)

theorem cleanupExpiredPermissions_map_eq (now : Nat)
    (store : List (String × TempPerm)) :
    (cleanupExpiredPermissions now store).1 =
      store.filter (fun e => now < e.2.expiry) := by
  induction store with
  | nil => simp [cleanupExpiredPermissions]
  | cons x rest ih =>
    by_cases h : x.2.expiry ≤ now
    · have h2 : ¬ now < x.2.expiry := by omega
      simp [cleanupExpiredPermissions, h, h2, ih]
    · have h2 : now < x.2.expiry := by omega
      simp [cleanupExpiredPermissions, h, h2, ih]

theorem cleanupExpiredPermissions_flag_eq (now : Nat)
    (store : List (String × TempPerm)) :
    (cleanupExpiredPermissions now store).2 =
      store.any (fun e => e.2.expiry ≤ now) := by
  induction store with
  | nil => simp [cleanupExpiredPermissions]
  | cons x rest ih =>
    by_cases h : x.2.expiry ≤ now <;>
      simp [cleanupExpiredPermissions, h, ih]

/-- C10: the expiry sweep only removes expired grants: the pruned map is
exactly the unexpired part of the store, the persist flag is set exactly
when some grant had expired, and when nothing has expired the sweep
returns the store unchanged with the persist flag off. -/
theorem cleanupExpiredPermissions_frame (now : Nat)
    (store : List (String × TempPerm)) :
    ((cleanupExpiredPermissions now store).1 =
        store.filter (fun e => now < e.2.expiry))
    ∧ ((cleanupExpiredPermissions now store).2 =
        store.any (fun e => e.2.expiry ≤ now))
    ∧ (store.all (fun e => now < e.2.expiry) = true →
        cleanupExpiredPermissions now store = (store, false)) := by
  refine ⟨cleanupExpiredPermissions_map_eq now store,
    cleanupExpiredPermissions_flag_eq now store, ?_⟩
  intro hall
  have hall2 : ∀ e ∈ store, now < e.2.expiry := by
    intro e he
    have := List.all_eq_true.mp hall e he
    simpa using this
  have hm2 : (cleanupExpiredPermissions now store).1 = store := by
    rw [cleanupExpiredPermissions_map_eq]
    apply List.filter_eq_self.mpr
    intro a ha
    simpa using hall2 a ha
  have hf2 : (cleanupExpiredPermissions now store).2 = false := by
    rw [cleanupExpiredPermissions_flag_eq]
    simp only [List.any_eq_false, decide_eq_true_eq]
    intro a ha
    have := hall2 a ha
    omega
  have hpair : cleanupExpiredPermissions now store =
      ((cleanupExpiredPermissions now store).1,
       (cleanupExpiredPermissions now store).2) := rfl
  rw [hpair, hm2, hf2]

/-- C10 witness: the frame theorem applied to a store holding one
unexpired grant, yielding the no-op behaviour of the sweep. -/
theorem cleanupExpiredPermissions_frame_witness :
    cleanupExpiredPermissions 10 [("b", (⟨true, true, 20⟩ : TempPerm))] =
      ([("b", ⟨true, true, 20⟩)], false) :=
  (cleanupExpiredPermissions_frame 10 [("b", ⟨true, true, 20⟩)]).2.2 (by decide)

/-- C8: a temporary grant whose expiry is not strictly in the future is
never used: the permission check behaves exactly as with an empty grant
store, its reason is `"global"` whenever the background short-circuit does
not apply, and the expiry sweep removes the grant from the store. -/
theorem expiredGrant_never_active (s : WPSettings)
    (store : List (String × TempPerm)) (hostname : String)
    (isBackground : Bool) (now : Nat) (tp : TempPerm)
    (hlook : List.lookup hostname store = some tp)
    (hexp : tp.expiry ≤ now) :
    checkSitePermissions s store hostname isBackground now =
        checkSitePermissions s [] hostname isBackground now
    ∧ ((isBackground && s.autoBlockBackground) = false →
        (checkSitePermissions s store hostname isBackground now).reason = "global")
    ∧ (hostname, tp) ∉ (cleanupExpiredPermissions now store).1 := by
  have hnot : ¬ now < tp.expiry := by omega
  refine ⟨?_, ?_, ?_⟩
  · unfold checkSitePermissions
    by_cases hbg : (isBackground && s.autoBlockBackground) = true
    · rw [if_pos hbg, if_pos hbg]
    · rw [if_neg hbg, if_neg hbg, hlook]
      simp [hnot, List.lookup]
  · intro hbg
    unfold checkSitePermissions
    rw [if_neg (by simp [hbg]), hlook]
    simp [hnot]
  · intro hmem
    have hh := (mem_cleanupExpiredPermissions now store _).mp hmem
    have hlt := hh.2
    simp only at hlt
    omega

/-- C8 witness: a grant expired at time 5 checked and swept at time 10. -/
theorem expiredGrant_never_active_witness :
    (checkSitePermissions ⟨true, true, true⟩
        [("site.example", ⟨true, true, 5⟩)] "site.example" false 10).reason = "global"
    ∧ ("site.example", (⟨true, true, 5⟩ : TempPerm)) ∉
        (cleanupExpiredPermissions 10 [("site.example", ⟨true, true, 5⟩)]).1 := by
  have h := expiredGrant_never_active ⟨true, true, true⟩
    [("site.example", ⟨true, true, 5⟩)] "site.example" false 10
    ⟨true, true, 5⟩ (by decide) (by decide)
  exact ⟨h.2.1 (by decide), h.2.2⟩

/-! ### Audit log (`content.js`, `appendLog`) -/

/-- Model of `SETTINGS.logLimit || DEFAULT_SETTINGS.logLimit`: an absent or
zero (falsy) setting falls back to the default capacity 800. -/
def effectiveLogLimit : Option Nat → Nat
  | some n => if n = 0 then 800 else n
  | none => 800

/-- Model of the eviction loop
`while (logs.length > limit) logs.shift()`. -/
def evictOldest {α : Type} (limit : Nat) : List α → List α
  | [] => []
  | x :: t => if limit < (x :: t).length then evictOldest limit t else x :: t

/-- Model of `appendLog(entry)`: push the entry, then evict from the front
until the configured capacity is respected; the resulting list is what is
written back to storage. -/
def appendLog {α : Type} (logLimitSetting : Option Nat) (logs : List α)
    (entry : α) : List α :=
  evictOldest (effectiveLogLimit logLimitSetting) (logs ++ [entry])

theorem evictOldest_eq_drop {α : Type} (limit : Nat) (l : List α) :
    evictOldest limit l = l.drop (l.length - limit) := by
  induction l with
  | nil => simp [evictOldest]
  | cons x t ih =>
    show (if limit < (x :: t).length then evictOldest limit t else x :: t) = _
    simp only [List.length_cons]
    by_cases h : limit < t.length + 1
    · rw [if_pos h, ih]
      have hlen : t.length + 1 - limit = (t.length - limit) + 1 := by omega
      rw [hlen]
      rfl
    · rw [if_neg h]
      have hlen : t.length + 1 - limit = 0 := by omega
      rw [hlen]
      rfl

/-- C7: the audit log is a bounded FIFO buffer: appending one entry to a
log already holding exactly the configured capacity evicts the oldest
entry, keeps the newer entries in order, and leaves the length at the
capacity. -/
theorem appendLog_ring_buffer {α : Type} (logLimitSetting : Option Nat)
    (logs : List α) (entry : α)
    (hfull : logs.length = effectiveLogLimit logLimitSetting) :
    appendLog logLimitSetting logs entry = logs.tail ++ [entry]
    ∧ (appendLog logLimitSetting logs entry).length =
        effectiveLogLimit logLimitSetting := by
  have hpos : 1 ≤ effectiveLogLimit logLimitSetting := by
    rcases logLimitSetting with _ | n
    · simp [effectiveLogLimit]
    · by_cases hn : n = 0
      · simp [effectiveLogLimit, hn]
      · simp only [effectiveLogLimit, if_neg hn]
        omega
  have h1 : appendLog logLimitSetting logs entry = logs.tail ++ [entry] := by
    unfold appendLog
    rw [evictOldest_eq_drop]
    have hlen : (logs ++ [entry]).length - effectiveLogLimit logLimitSetting = 1 := by
      simp only [List.length_append, List.length_cons, List.length_nil]
      omega
    rw [hlen, List.drop_append_of_le_length (by omega), List.drop_one]
  refine ⟨h1, ?_⟩
  rw [h1]
  simp only [List.length_append, List.length_tail, List.length_cons, List.length_nil]
  omega

/-- C7 witness: a log of capacity 2 holding 2 entries; appending a third
drops the oldest and keeps the capacity. -/
theorem appendLog_ring_buffer_witness :
    appendLog (some 2) [10, 20] (30 : Nat) = [10, 20].tail ++ [30]
    ∧ (appendLog (some 2) [10, 20] (30 : Nat)).length = effectiveLogLimit (some 2) :=
  appendLog_ring_buffer (some 2) [10, 20] 30 (by decide)

/-! ### Sensitive-data classifier (`content.js`, `luhnCheck`, `detectTypes`) -/

/-- Numeric value of a decimal digit character, `parseInt(c, 10)`. -/
def digitVal (c : Char) : Nat :=
  c.toNat - 48

/-- The summation loop of `luhnCheck`, walking the digits from the last to
the first with the doubling flag `flip` starting at `false`; digits doubled
above 9 have 9 subtracted. -/
def luhnSum : List Nat → Bool → Nat
  | [], _ => 0
  | d :: rest, flip =>
      (if flip then (if 9 < d * 2 then d * 2 - 9 else d * 2) else d) + luhnSum rest (!flip)

/-- Model of `luhnCheck(number)`: strip non-digits, reject fewer than 12
digits, then accept exactly when the alternating-doubling digit sum is
divisible by 10. -/
def luhnCheck (number : List Char) : Bool :=
  let digits := number.filter Char.isDigit
  if digits.length < 12 then false
  else (luhnSum ((digits.map digitVal).reverse) false) % 10 == 0

example : luhnCheck "4111111111111111".data = true := by decide
example : luhnCheck "4111111111111112".data = false := by decide
example : luhnCheck "41111111111".data = false := by decide

/-- Oracles for the external matchers of `detectTypes`: `pattern t` stands
for `PATTERNS[t].test(val)` and `keyword t` for
`KEYWORDS[t].some(k => ctx.includes(k))`; the regular-expression engine is
outside the embedding, so both are arbitrary. -/
structure MatchOracles where
  pattern : String → Bool
  keyword : String → Bool

/-- Model of `detectTypes(el)`: each category is added to the set (here: an
insertion-ordered list of distinct tags) when its regex OR keyword oracle
fires, except `cardNumber`, which additionally requires 13–19 digits and a
passing Luhn check on the raw value; `password` fires on a password input
or a password keyword. -/
def detectTypes (m : MatchOracles) (val : List Char) (isPasswordInput : Bool) :
    List String :=
  let digits := val.filter Char.isDigit
  (if m.pattern "email" || m.keyword "email" then ["email"] else [])
  ++ (if m.pattern "phone" || m.keyword "phone" then ["phone"] else [])
  ++ (if (m.pattern "cardNumber" || m.keyword "cardNumber")
        && (decide (13 ≤ digits.length) && decide (digits.length ≤ 19)
            && luhnCheck val) then ["cardNumber"] else [])
  ++ (if m.pattern "cvv" || m.keyword "cvv" then ["cvv"] else [])
  ++ (if m.pattern "cardExpiry" || m.keyword "cardExpiry" then ["cardExpiry"] else [])
  ++ (if m.pattern "bvn" || m.keyword "bvn" then ["bvn"] else [])
  ++ (if m.pattern "nin" || m.keyword "nin" then ["nin"] else [])
  ++ (if m.pattern "bankAccount" || m.keyword "bankAccount" then ["bankAccount"] else [])
  ++ (if m.pattern "passport" || m.keyword "passport" then ["passport"] else [])
  ++ (if m.pattern "dob" || m.keyword "dob" then ["dob"] else [])
  ++ (if m.pattern "ssn" || m.keyword "ssn" then ["ssn"] else [])
  ++ (if isPasswordInput || m.keyword "password" then ["password"] else [])

theorem mem_segment (x t : String) (c : Bool) :
    x ∈ (if c then [t] else []) ↔ (c = true ∧ x = t) := by
  cases c <;> simp

/-- C9: the classifier never emits `cardNumber` for a value that fails the
Luhn check, regardless of what the card-number regex or keyword oracles
report. -/
theorem detectTypes_card_requires_luhn (m : MatchOracles) (val : List Char)
    (isPasswordInput : Bool) (hluhn : luhnCheck val = false) :
    "cardNumber" ∉ detectTypes m val isPasswordInput := by
  intro hmem
  simp only [detectTypes, List.mem_append, mem_segment, hluhn, Bool.and_false] at hmem
  simp at hmem

/-- C9 witness: a 16-digit card-shaped value failing the checksum, with
both oracles reporting a match, yields no `cardNumber` tag. -/
theorem detectTypes_card_requires_luhn_witness :
    luhnCheck "4111111111111112".data = false
    ∧ "cardNumber" ∉
        detectTypes ⟨fun _ => true, fun _ => true⟩ "4111111111111112".data false :=
  ⟨by decide,
    detectTypes_card_requires_luhn ⟨fun _ => true, fun _ => true⟩
      "4111111111111112".data false (by decide)⟩

/-! ### Sample anonymization (`content.js`, `anonymizeSample`) -/

/-- Model of `str.slice(-n)`: the last `n` characters. -/
def takeLast {α : Type} (n : Nat) (l : List α) : List α :=
  l.drop (l.length - n)

/-- Model of `anonymizeSample(value, type)`: returns `none` for a falsy
(empty) value, otherwise the masked preview stored in the audit log.  The
`email` branch mirrors `raw.split("@")`: `u` is the part before the first
`@` and `d` the part between the first and second `@`; an absent or empty
`d` yields the fully masked form. -/
def anonymizeSample (value : List Char) (type : String) : Option (List Char) :=
  if value = [] then none
  else if type = "cardNumber" then
    let digits := value.filter Char.isDigit
    some (if 4 ≤ digits.length
      then "•••• •••• •••• ".data ++ takeLast 4 digits
      else "••••".data)
  else if type = "bankAccount" then
    let d := value.filter Char.isDigit
    some (if 4 ≤ d.length then "Acct ••••".data ++ takeLast 4 d else "Acct ••••".data)
  else if type = "nin" ∨ type = "bvn" then
    some ("••••".data ++ takeLast 4 value)
  else if type = "email" then
    if '@' ∈ value then
      let u := value.takeWhile (fun c => !(c == '@'))
      let d := ((value.dropWhile (fun c => !(c == '@'))).drop 1).takeWhile
        (fun c => !(c == '@'))
      if d = [] then some "•••@•••".data
      else
        some ((if 2 < u.length then u.take 1 ++ "••".data ++ takeLast 1 u
               else "•••".data) ++ "@".data ++ d)
    else some "•••@•••".data
  else if type = "phone" then
    let d := value.filter Char.isDigit
    some (if 4 ≤ d.length then "•••".data ++ takeLast 4 d else "•••".data)
  else
    some (if 4 < value.length
      then value.take 1 ++ "•••".data ++ takeLast 1 value
      else "•••".data)

example : anonymizeSample "4111 1111 1111 1111".data "cardNumber" =
    some "•••• •••• •••• 1111".data := by decide
example : anonymizeSample "12345678901".data "nin" = some "••••8901".data := by decide
example : anonymizeSample "john.doe@mail.com".data "email" =
    some "j••e@mail.com".data := by decide
example : anonymizeSample [] "cardNumber" = none := by decide

theorem length_takeLast_le {α : Type} (n : Nat) (l : List α) :
    (takeLast n l).length ≤ n := by
  unfold takeLast
  rw [List.length_drop]
  omega

/-- C5 counterexample: a four-digit value classified `nin` (via the keyword
oracle) is stored with its full raw value visible in the masked preview. -/
theorem anonymizeSample_counterexample :
    anonymizeSample "1234".data "nin" = some "••••1234".data
    ∧ "1234".data <:+: "••••1234".data := by
  refine ⟨by decide, "••••".data, [], by decide⟩

theorem countP_digit_anonymizeSample (value : List Char) (type : String)
    (hdig : ∀ c ∈ value, c.isDigit = true)
    (sample : List Char) (hs : anonymizeSample value type = some sample) :
    sample.countP (fun c => c.isDigit) ≤ 4 := by
  have hlit : ∀ (lit rest : List Char), lit.countP (fun c => c.isDigit) = 0 →
      rest.length ≤ 4 → (lit ++ rest).countP (fun c => c.isDigit) ≤ 4 := by
    intro lit rest h0 hr
    rw [List.countP_append, h0]
    have := List.countP_le_length (fun c => c.isDigit) (l := rest)
    omega
  have hat : '@' ∉ value := by
    intro hmem
    have := hdig '@' hmem
    simp at this
  unfold anonymizeSample at hs
  split_ifs at hs
  all_goals injection hs with hs
  all_goals subst hs
  all_goals try decide
  · split
    · exact hlit _ _ (by decide) (length_takeLast_le 4 _)
    · decide
  · split
    · exact hlit _ _ (by decide) (length_takeLast_le 4 _)
    · decide
  · exact hlit _ _ (by decide) (length_takeLast_le 4 _)
  · split
    · exact hlit _ _ (by decide) (length_takeLast_le 4 _)
    · decide
  · rw [List.countP_append, List.countP_append]
    have h1 := List.countP_le_length (fun c => c.isDigit) (l := List.take 1 value)
    have h2 := List.countP_le_length (fun c => c.isDigit) (l := takeLast 1 value)
    have h3 : (List.take 1 value).length ≤ 1 := by
      rw [List.length_take]
      omega
    have h4 := length_takeLast_le 1 value
    have h5 : List.countP (fun c => c.isDigit) "•••".data = 0 := by decide
    omega

/-- C5 (amended): for every all-digit value longer than 4 characters and
every type tag, the masked preview stored by `anonymizeSample` never
contains the raw value in full — at most its last 4 digits survive. -/
theorem anonymizeSample_masks (value : List Char) (type : String)
    (hdig : ∀ c ∈ value, c.isDigit = true) (hlen : 5 ≤ value.length)
    (sample : List Char) (hs : anonymizeSample value type = some sample) :
    ¬ value <:+: sample := by
  intro hinf
  have hsub : List.Sublist value sample := hinf.sublist
  have hcount := hsub.countP_le (fun c => c.isDigit)
  have hval : value.countP (fun c => c.isDigit) = value.length :=
    List.countP_eq_length.mpr hdig
  have hbound := countP_digit_anonymizeSample value type hdig sample hs
  omega

/-- C5 witness: a five-digit value masked as a card number does not occur
in its own preview. -/
theorem anonymizeSample_masks_witness :
    (∀ c ∈ "12345".data, c.isDigit = true)
    ∧ 5 ≤ "12345".data.length
    ∧ ¬ "12345".data <:+: "•••• •••• •••• 2345".data :=
  ⟨by decide, by decide,
    anonymizeSample_masks "12345".data "cardNumber" (by decide) (by decide)
      "•••• •••• •••• 2345".data (by decide)⟩

/-! ### Form-submit decision (`content.js`, `hookAllForms` submit handler) -/

/-- Observable outcome of the submit handler: whether the submit event was
cancelled (with the override modal shown), which audit action was logged
(`none` on the early returns), and the `proceedOnceFlag` afterwards. -/
structure SubmitOutcome where
  blocked : Bool
  logAction : Option String
  proceedOnceAfter : Bool
  deriving Repr, DecidableEq

/-- Model of the capture-phase `submit` listener installed by
`hookAllForms`: early return when protection is off or no sensitive types
were detected in the form (no log either way); otherwise compute the risk
and block — cancelling the event, parking the form and opening the modal —
exactly when `blockOnHighRisk` is set, the level is high, the host is not
in `trustedDomains` and no one-time proceed override is pending; in all
remaining cases the submission proceeds, the one-time flag is consumed and
an `allowed-submit` entry is logged.  `types` is the set of types detected
across the form's inputs, `proceedOnce` the current `proceedOnceFlag`. -/
def submitHandler (enableProtection blockOnHighRisk : Bool)
    (trustedDomains : List String) (host : String) (types : List String)
    (https crossOrigin : Bool) (proceedOnce : Bool) : SubmitOutcome :=
  if !enableProtection then ⟨false, none, proceedOnce⟩
  else if types.isEmpty then ⟨false, none, proceedOnce⟩
  else
    let trusted := trustedDomains.contains host
    let risk := computeRisk types https crossOrigin trusted
    if blockOnHighRisk && (risk.level == "high") && !trusted && !proceedOnce then
      ⟨true, some "blocked-submit", proceedOnce⟩
    else
      ⟨false, some "allowed-submit", false⟩

example :
    submitHandler true true [] "shop.example" ["cardNumber"] false false false =
      ⟨true, some "blocked-submit", false⟩ := by decide
example :
    submitHandler true true ["shop.example"] "shop.example" ["cardNumber"] false false false =
      ⟨false, some "allowed-submit", false⟩ := by decide

/-- C6 counterexample: protection on, blocking on, host untrusted, no
pending override, and the computed level for the form context is high
(empty type set on an insecure cross-origin untrusted form scores 70), yet
the handler neither blocks nor logs an allowed submission: the
no-sensitive-types early return fires first. -/
theorem submitHandler_counterexample :
    (computeRisk [] false true false).level = "high"
    ∧ submitHandler true true [] "shop.example" [] false true false =
        ⟨false, none, false⟩ := by
  decide

/-- C6 (amended): when protection is enabled and at least one sensitive
type was detected, the submission is blocked exactly when the computed
level is high, `blockOnHighRisk` is set, the host is untrusted and no
one-time override is pending; blocking logs `blocked-submit`, and in every
other such case the submission proceeds and is logged `allowed-submit`. -/
theorem submitHandler_decision (blockOnHighRisk : Bool)
    (trustedDomains : List String) (host : String) (types : List String)
    (https crossOrigin proceedOnce : Bool)
    (hne : types ≠ []) :
    ((submitHandler true blockOnHighRisk trustedDomains host types https
        crossOrigin proceedOnce).blocked = true ↔
      ((computeRisk types https crossOrigin (trustedDomains.contains host)).level = "high"
        ∧ blockOnHighRisk = true
        ∧ trustedDomains.contains host = false
        ∧ proceedOnce = false))
    ∧ ((submitHandler true blockOnHighRisk trustedDomains host types https
        crossOrigin proceedOnce).blocked = true →
      (submitHandler true blockOnHighRisk trustedDomains host types https
        crossOrigin proceedOnce).logAction = some "blocked-submit")
    ∧ ((submitHandler true blockOnHighRisk trustedDomains host types https
        crossOrigin proceedOnce).blocked = false →
      (submitHandler true blockOnHighRisk trustedDomains host types https
        crossOrigin proceedOnce).logAction = some "allowed-submit") := by
  have hempty : types.isEmpty = false := by
    cases types with
    | nil => exact absurd rfl hne
    | cons a t => rfl
  unfold submitHandler
  simp only [Bool.not_true, Bool.false_eq_true, if_false, hempty]
  by_cases hc : (blockOnHighRisk
      && ((computeRisk types https crossOrigin (trustedDomains.contains host)).level == "high")
      && !(trustedDomains.contains host) && !proceedOnce) = true
  · rw [if_pos hc]
    simp only [Bool.and_eq_true, Bool.not_eq_true', beq_iff_eq] at hc
    refine ⟨?_, ?_, ?_⟩
    · constructor
      · intro _
        exact ⟨hc.1.1.2, hc.1.1.1, hc.1.2, hc.2⟩
      · intro _
        rfl
    · intro _
      rfl
    · intro hb
      dsimp at hb
      exact absurd hb (by decide)
  · rw [if_neg hc]
    refine ⟨?_, ?_, ?_⟩
    · constructor
      · intro hb
        dsimp at hb
        exact absurd hb (by decide)
      · rintro ⟨hl, hb, ht, hp⟩
        exfalso
        apply hc
        rw [hl, hb, ht, hp]
        decide
    · intro hb
      dsimp at hb
      exact absurd hb (by decide)
    · intro _
      rfl

/-- C6 witness: a high-risk card-number form on an untrusted host with
blocking enabled is blocked and logged as such. -/
theorem submitHandler_decision_witness :
    (submitHandler true true [] "shop.example" ["cardNumber"] false false false).blocked = true
    ∧ (submitHandler true true [] "shop.example" ["cardNumber"] false false false).logAction
        = some "blocked-submit" := by
  have h := submitHandler_decision true [] "shop.example" ["cardNumber"]
    false false false (by decide)
  have hb : (submitHandler true true [] "shop.example" ["cardNumber"] false false false).blocked
      = true := h.1.mpr (by decide)
  exact ⟨hb, h.2.1 hb⟩

end SatrGuard
